import Mathlib

/-!
# Verification of the Sabzee marketplace server (checkout / orders / cart / predictions)

Shallow embedding of the route handlers and mongoose models of the
Sabzee_Server repository.  Identifiers are stored as natural numbers
(standing for ObjectId values), JS numbers holding prices as rationals, and
JS numbers holding quantities as integers.  Each HTTP handler becomes a pure
function from a request and a database state to a response and a new state.

Mongoose session/transaction semantics: writes issued with `{ session }` are
buffered until `commitTransaction`; a handler path that returns before the
commit leaves the database unchanged (the uncommitted transaction is aborted
when the session times out / ends).  We model this by having every
early-return branch of the checkout handler give back the original state.
-/

/-- JS truthiness of a possibly-absent string field: `undefined`/missing and
the empty string are falsy. -/
def truthyStr : Option String → Bool
  | none => false
  | some s => s ≠ ""

/-- Product record, fields of `productSchema` used by the routes
(src/models/Product.js). -/
structure Product where
  id : Nat
  farmer : Nat
  name : String
  price : ℤ
  quantity : ℤ
  status : String
  averageRating : ℚ
  deriving Repr, DecidableEq

/-- `productSchema.pre('save')` (src/models/Product.js:94-97): every `save()`
re-derives `status` from `quantity`. -/
def productPreSave (p : Product) : Product :=
  { p with status := if p.quantity > 0 then "available" else "sold_out" }

/-- `Product.findById` over the products collection. -/
def productFindById (ps : List Product) (pid : Nat) : Option Product :=
  ps.find? (fun p => p.id == pid)

/-- Persisting `product.save()`: the pre-save hook runs, then the document
replaces the stored one with the same `_id`. -/
def productSave (ps : List Product) (q : Product) : List Product :=
  ps.map (fun r => if r.id == q.id then productPreSave q else r)

/-- Cart item subdocument (src/unnamed/part_002 `cartItemSchema`): its own
`_id`, a product reference and a quantity. -/
structure CartItem where
  id : Nat
  product : Nat
  quantity : ℤ
  deriving Repr, DecidableEq

/-- Cart document (src/unnamed/part_002 `cartSchema`): unique per user, with
a stored derived `total`. -/
structure Cart where
  id : Nat
  user : Nat
  items : List CartItem
  total : ℤ
  deriving Repr, DecidableEq

/-- `Cart.findOne({ user })`. -/
def cartFindOne (cs : List Cart) (uid : Nat) : Option Cart :=
  cs.find? (fun c => c.user == uid)

/-- One term of the reduce in `cartSchema.pre('save')`: the populated
product's price times the quantity, skipped when the product is gone or its
price is falsy (`if (item.product && item.product.price)`). -/
def cartHookTerm (dbProducts : List Product) (it : CartItem) : ℤ :=
  match productFindById dbProducts it.product with
  | some p => if p.price ≠ 0 then p.price * it.quantity else 0
  | none => 0

/-- `cartSchema.pre('save')` (src/unnamed/part_002:33-56): when `items` is
modified, the hook re-reads the cart **from the database by `_id`** (the
state as it was before this save) and sums price×quantity over those
pre-save items; a cart not yet persisted, or persisted with no items, gets
`total = 0`.  `dbProducts`/`dbCarts` are the committed database state the
hook's query sees. -/
def cartPreSaveApply (dbProducts : List Product) (dbCarts : List Cart)
    (cart : Cart) (newItems : List CartItem) : Cart :=
  if newItems = cart.items then
    -- `isModified('items')` is false: the hook leaves `total` alone.
    { cart with items := newItems }
  else
    match dbCarts.find? (fun c => c.id == cart.id) with
    | some dbc =>
        if dbc.items.isEmpty then { cart with items := newItems, total := 0 }
        else
          { cart with
            items := newItems
            total := (dbc.items.map (cartHookTerm dbProducts)).sum }
    | none => { cart with items := newItems, total := 0 }

/-- Replace the stored cart with the saved document (same `_id`). -/
def cartReplace (cs : List Cart) (c' : Cart) : List Cart :=
  cs.map (fun c => if c.id == c'.id then c' else c)

/-- Order line item: the snapshot pushed by the checkout loop
(src/unnamed/part_000:236-241): product id, quantity, price, name. -/
structure OrderItem where
  product : Nat
  quantity : ℤ
  price : ℤ
  name : String
  deriving Repr, DecidableEq

/-- Order document.  The mongoose Order model file is not present under
src/; its field set is mirrored from every handler that constructs or
mutates orders (src/unnamed/part_000) and from spec §3: consumer and farmer
references, item snapshots, frozen `totalAmount`, `status` (defaulting to
`pending` on creation), payment method, optional cancel reason.  `farmer` is
an `Option` because the direct order-creation path can assign the JS value
`undefined` to it. -/
structure Order where
  id : Nat
  consumer : Nat
  farmer : Option Nat
  items : List OrderItem
  totalAmount : ℤ
  paymentMethod : Option String
  status : String
  cancelReason : Option String
  deriving Repr, DecidableEq

/-- `Order.findById`. -/
def orderFindById (os : List Order) (oid : Nat) : Option Order :=
  os.find? (fun o => o.id == oid)

/-- The database state the order/cart/product routes touch. -/
structure DbState where
  products : List Product
  carts : List Cart
  orders : List Order
  deriving Repr, DecidableEq

/-- Shipping details object of a checkout request; every field may be absent
(JS objects have no mandatory keys). -/
structure ShippingDetails where
  fullName : Option String
  address : Option String
  city : Option String
  state : Option String
  postalCode : Option String
  phoneNumber : Option String
  deriving Repr, DecidableEq

/-- Body of `POST /api/orders/checkout`. -/
structure CheckoutReq where
  paymentMethod : Option String
  shippingDetails : Option ShippingDetails
  notes : Option String
  deriving Repr, DecidableEq

/-- The checkout handler's boundary check on shipping details
(`!shippingDetails || !shippingDetails.address`). -/
def shippingOkB (sd : Option ShippingDetails) : Bool :=
  match sd with
  | none => false
  | some s => truthyStr s.address

/-- Responses of `POST /api/orders/checkout` (each constructor carries the
data its JSON body reports). -/
inductive CheckoutRes where
  /-- 400 "Payment method is required". -/
  | paymentRequired
  /-- 400 "Shipping details are required". -/
  | shippingRequired
  /-- 400 "Your cart is empty". -/
  | emptyCart
  /-- 404 "Product not found". -/
  | productNotFound
  /-- 400 "Insufficient quantity for NAME. Available: A, Requested: R". -/
  | insufficientStock (name : String) (available requested : ℤ)
  /-- 201 with the array of created orders. -/
  | created (orders : List Order)
  deriving Repr, DecidableEq

/-- Failures of the per-item checkout loop. -/
inductive CheckoutFail where
  | productNotFound
  | insufficientStock (name : String) (available requested : ℤ)
  deriving Repr, DecidableEq

/-- `itemsByFarmer[farmerId].push(item)` on a JS object whose keys are
24-hex-digit farmer ids: plain-string keys keep insertion order, so the
grouping is an association list appending a new farmer key at the end on
first occurrence. -/
def pushGroup : List (Nat × List OrderItem) → Nat → OrderItem →
    List (Nat × List OrderItem)
  | [], f, oi => [(f, [oi])]
  | (g, its) :: rest, f, oi =>
      if g = f then (g, its ++ [oi]) :: rest
      else (g, its) :: pushGroup rest f oi

/-- The `for (const cartItem of cart.items)` loop of the checkout handler
(src/unnamed/part_000:218-246): resolve the populated product, fail on a
missing product or on insufficient stock, otherwise group the snapshot by
farmer and decrement-and-save the product's quantity (a write buffered in
the transaction, visible to later `findById` reads in the same session). -/
def checkoutItems : List CartItem → List Product → List (Nat × List OrderItem) →
    Except CheckoutFail (List (Nat × List OrderItem) × List Product)
  | [], ps, groups => .ok (groups, ps)
  | ci :: rest, ps, groups =>
      match productFindById ps ci.product with
      | none => .error .productNotFound
      | some p =>
          if p.quantity < ci.quantity then
            .error (.insufficientStock p.name p.quantity ci.quantity)
          else
            let oi : OrderItem := ⟨p.id, ci.quantity, p.price, p.name⟩
            checkoutItems rest
              (productSave ps { p with quantity := p.quantity - ci.quantity })
              (pushGroup groups p.farmer oi)

/-- `totalAmount` of one farmer partition:
`farmerItems.reduce((total, item) => total + item.price * item.quantity, 0)`. -/
def farmerTotal (its : List OrderItem) : ℤ :=
  its.foldl (fun t it => t + it.price * it.quantity) 0

/-- `new Order({...})` per farmer partition (src/unnamed/part_000:258-266);
ids stand in for the ObjectId values Mongo would generate. -/
def mkOrdersFrom (uid : Nat) (req : CheckoutReq) (nextId : Nat) :
    List (Nat × List OrderItem) → List Order
  | [] => []
  | (f, its) :: rest =>
      { id := nextId, consumer := uid, farmer := some f, items := its,
        totalAmount := farmerTotal its, paymentMethod := req.paymentMethod,
        status := "pending", cancelReason := none } ::
      mkOrdersFrom uid req (nextId + 1) rest

/-- `POST /api/orders/checkout` (src/unnamed/part_000:193-286).  All writes
happen under the mongoose session; any return before `commitTransaction`
leaves the state unchanged.  The final `cart.save({session})` runs the
cart pre-save hook, whose own `findOne` query is issued **without** the
session and therefore sees the original committed state. -/
def checkout (st : DbState) (uid : Nat) (req : CheckoutReq) :
    CheckoutRes × DbState :=
  if truthyStr req.paymentMethod = false then (.paymentRequired, st)
  else if shippingOkB req.shippingDetails = false then (.shippingRequired, st)
  else
    match cartFindOne st.carts uid with
    | none => (.emptyCart, st)
    | some cart =>
        if cart.items.isEmpty then (.emptyCart, st)
        else
          match checkoutItems cart.items st.products [] with
          | .error .productNotFound => (.productNotFound, st)
          | .error (.insufficientStock n a r) => (.insufficientStock n a r, st)
          | .ok (groups, products') =>
              let os := mkOrdersFrom uid req st.orders.length groups
              let cart' := cartPreSaveApply st.products st.carts cart []
              (.created os,
               { products := products',
                 carts := cartReplace st.carts cart',
                 orders := st.orders ++ os })

/-- Distinct owning farmers of a cart's resolvable items, in order of first
occurrence. -/
def insFarmer (acc : List Nat) (f : Nat) : List Nat :=
  if f ∈ acc then acc else acc ++ [f]

/-- First-occurrence-ordered list of distinct farmers owning the products the
cart items resolve to, continuing from an accumulator. -/
def distinctFarmersFrom (ps : List Product) (items : List CartItem)
    (acc : List Nat) : List Nat :=
  items.foldl
    (fun a ci =>
      match productFindById ps ci.product with
      | some p => insFarmer a p.farmer
      | none => a) acc

/-- Distinct owning farmers of the cart items (resolved against `ps`). -/
def distinctFarmers (ps : List Product) (items : List CartItem) : List Nat :=
  distinctFarmersFrom ps items []

/-- Σ price × quantity over the cart's items, prices resolved against `ps`
(unresolvable items contribute 0). -/
def cartItemsTotal (ps : List Product) (items : List CartItem) : ℤ :=
  (items.map (fun ci =>
    match productFindById ps ci.product with
    | some p => p.price * ci.quantity
    | none => 0)).sum

/-- Σ price × quantity over a list of order-item snapshots. -/
def itemsSum (its : List OrderItem) : ℤ :=
  (its.map (fun it => it.price * it.quantity)).sum

/-- Σ of itemsSum over all farmer groups. -/
def groupsSum (groups : List (Nat × List OrderItem)) : ℤ :=
  (groups.map (fun g => itemsSum g.2)).sum

/-- The farmer keys of the grouping, in insertion order. -/
def groupKeys (groups : List (Nat × List OrderItem)) : List Nat :=
  groups.map (·.1)

/-- The status values `PUT /api/orders/:id` accepts
(`check('status').isIn([...])`, src/unnamed/part_000:154); note `pending` is
not among them. -/
def allowedUpdateStatuses : List String :=
  ["confirmed", "processing", "shipped", "delivered", "cancelled"]

/-- Responses of `PUT /api/orders/:id`. -/
inductive UpdateOrderRes where
  /-- 400 from express-validator (status not in the enumerated set). -/
  | validationFailed
  /-- 404 "Order not found". -/
  | orderNotFound
  /-- 401 "Not authorized" (actor is not the order's farmer). -/
  | notAuthorized
  /-- 500 (e.g. `order.farmer.toString()` on an undefined farmer throws). -/
  | serverError
  /-- 200 with the updated order. -/
  | ok (o : Order)
  deriving Repr, DecidableEq

/-- Assignment performed by the handler body: `order.status = req.body.status`
and, only when the new status is `cancelled`,
`order.cancelReason = req.body.cancelReason`. -/
def orderSetStatus (o : Order) (status : String) (cancelReason : Option String) :
    Order :=
  { o with status := status,
           cancelReason := if status = "cancelled" then cancelReason
                           else o.cancelReason }

/-- Persist `order.save()` (replace by `_id`). -/
def orderSave (os : List Order) (o' : Order) : List Order :=
  os.map (fun o => if o.id == o'.id then o' else o)

/-- `PUT /api/orders/:id` (src/unnamed/part_000:150-186 and the identical
src/routes/orders.js:137-173): validate the requested status is in the
enumerated set, load the order, check the acting farmer owns it, then
overwrite `status` (and `cancelReason` when cancelling) unconditionally —
there is no check against the order's current status. -/
def updateOrderStatus (st : DbState) (actorId orderId : Nat) (status : String)
    (cancelReason : Option String) : UpdateOrderRes × DbState :=
  if status ∉ allowedUpdateStatuses then (.validationFailed, st)
  else
    match orderFindById st.orders orderId with
    | none => (.orderNotFound, st)
    | some o =>
        match o.farmer with
        | none => (.serverError, st)
        | some f =>
            if f ≠ actorId then (.notAuthorized, st)
            else
              let o' := orderSetStatus o status cancelReason
              (.ok o', { st with orders := orderSave st.orders o' })

/-- Responses of the cart routes. -/
inductive CartRes where
  /-- 400 from express-validator or stock/availability checks. -/
  | badRequest
  /-- 404 "Product not found". -/
  | productNotFound
  /-- 404 "Cart not found". -/
  | cartNotFound
  /-- 200 with the (re-fetched) cart. -/
  | ok (c : Cart)
  deriving Repr, DecidableEq

/-- A fresh `_id` for a new subdocument/document, standing in for ObjectId
generation: one more than the largest id in use. -/
def freshId (ids : List Nat) : Nat :=
  (ids.foldl max 0) + 1

/-- `POST /api/cart` (src/routes/cart.js:54-125): validate quantity ≥ 1,
require the product to exist, be `available`, and have enough stock; find or
lazily create the user's cart; replace the quantity if the product already
has a line, else append a new item; then `cart.save()` (running the
pre-save total hook against the pre-save database state). -/
def addToCart (st : DbState) (uid pid : Nat) (qty : ℤ) : CartRes × DbState :=
  if qty < 1 then (.badRequest, st)
  else
    match productFindById st.products pid with
    | none => (.productNotFound, st)
    | some p =>
        if p.status ≠ "available" then (.badRequest, st)
        else if p.quantity < qty then (.badRequest, st)
        else
          let cart :=
            match cartFindOne st.carts uid with
            | some c => c
            | none => { id := freshId (st.carts.map (·.id)), user := uid,
                        items := [], total := 0 }
          let newItems :=
            if (cart.items.map (·.product)).contains pid then
              cart.items.map (fun it =>
                if it.product == pid then { it with quantity := qty } else it)
            else
              cart.items ++
                [{ id := freshId (cart.items.map (·.id)), product := pid,
                   quantity := qty }]
          let cart' := cartPreSaveApply st.products st.carts cart newItems
          (.ok cart',
           { st with carts :=
               if (cartFindOne st.carts uid).isSome then cartReplace st.carts cart'
               else st.carts ++ [cart'] })

/-- `cartSchema.methods.removeItem` (src/unnamed/part_002:59-62): filter the
item out (a no-op when the id is absent) and save. -/
def cartRemoveItem (st : DbState) (cart : Cart) (itemId : Nat) : Cart :=
  cartPreSaveApply st.products st.carts cart
    (cart.items.filter (fun it => it.id ≠ itemId))

/-- `DELETE /api/cart/:itemId` (src/routes/cart.js:204-240): 404 only when
the user has no cart; otherwise `cart.removeItem(itemId)` runs and the
(re-fetched) cart is returned with 200 — there is no check that the item id
was actually present. -/
def deleteCartItem (st : DbState) (uid itemId : Nat) : CartRes × DbState :=
  match cartFindOne st.carts uid with
  | none => (.cartNotFound, st)
  | some cart =>
      let cart' := cartRemoveItem st cart itemId
      (.ok cart', { st with carts := cartReplace st.carts cart' })

/-- Fields a `PUT /api/products/:id` request may carry (subset relevant to
the quantity/status invariant; each is optional in the body). -/
structure ProductUpdate where
  name : Option String
  price : Option ℤ
  quantity : Option ℤ
  deriving Repr, DecidableEq

/-- The `$set` document `findByIdAndUpdate` applies: present fields
overwrite, absent fields are left alone.  No pre-save hook runs, so `status`
is never touched. -/
def applyProductSet (p : Product) (u : ProductUpdate) : Product :=
  { p with
    name := u.name.getD p.name
    price := u.price.getD p.price
    quantity := u.quantity.getD p.quantity }

/-- Responses of `PUT /api/products/:id`. -/
inductive ProductRes where
  | validationFailed
  | productNotFound
  | notAuthorized
  | ok (p : Product)
  deriving Repr, DecidableEq

/-- `PUT /api/products/:id` (second file concatenated in
src/routes/predictions.js, lines 401-449): load the product, check
ownership, then `Product.findByIdAndUpdate(id, { $set: updateData })` —
which, unlike `save()`, does **not** run `productSchema.pre('save')`, so the
stored `status` is whatever it was before the update. -/
def updateProduct (st : DbState) (actorId pid : Nat) (u : ProductUpdate) :
    ProductRes × DbState :=
  match productFindById st.products pid with
  | none => (.productNotFound, st)
  | some p =>
      if p.farmer ≠ actorId then (.notAuthorized, st)
      else
        let p' := applyProductSet p u
        (.ok p',
         { st with products :=
             st.products.map (fun r => if r.id == p'.id then p' else r) })

/-- One requested line of a `POST /api/orders` (direct order) body: a
client-supplied product id and a quantity. -/
structure DirectOrderItem where
  product : Nat
  quantity : ℤ
  deriving Repr, DecidableEq

/-- The snapshot the direct-order loop pushes
(src/unnamed/part_000:52-57): note `product` is the **client-supplied id**
`item.product`, not the resolved product document. -/
structure ValidatedItem where
  product : Nat
  quantity : ℤ
  price : ℤ
  name : String
  deriving Repr, DecidableEq

/-- JS property access `x.farmer` where `x` is an ObjectId/string product id:
ids have no `farmer` property, so the result is `undefined` for every id. -/
def idFarmerProp (_ : Nat) : Option Nat := none

/-- The validation/decrement loop of `POST /api/orders`
(src/unnamed/part_000:42-64), returning the validated snapshots and total on
success.  (Unlike checkout, this loop saves product decrements outside any
transaction; that does not matter for the order it constructs.) -/
def validateDirectItems : List DirectOrderItem → List Product →
    List ValidatedItem → ℤ →
    Option (List ValidatedItem × ℤ × List Product)
  | [], ps, acc, total => some (acc, total, ps)
  | it :: rest, ps, acc, total =>
      match productFindById ps it.product with
      | none => none
      | some p =>
          if p.quantity < it.quantity then none
          else
            validateDirectItems rest
              (productSave ps { p with quantity := p.quantity - it.quantity })
              (acc ++ [⟨it.product, it.quantity, p.price, p.name⟩])
              (total + p.price * it.quantity)

/-- The Order value `POST /api/orders` constructs when every item validates
(src/unnamed/part_000:66-74): its farmer is
`validatedItems[0].product.farmer` — the `farmer` property of the first
item's client-supplied product **id**, i.e. `undefined`.  Returns `none` on
any early-return path (empty items make `validatedItems[0]` throw → 500). -/
def directOrderFor (st : DbState) (uid : Nat) (items : List DirectOrderItem)
    (paymentMethod : Option String) : Option Order :=
  match validateDirectItems items st.products [] 0 with
  | none => none
  | some (validatedItems, totalAmount, _) =>
      match validatedItems with
      | [] => none
      | v0 :: _ =>
          some { id := 0, consumer := uid, farmer := idFarmerProp v0.product,
                 items := validatedItems.map
                   (fun v => ⟨v.product, v.quantity, v.price, v.name⟩),
                 totalAmount := totalAmount, paymentMethod := paymentMethod,
                 status := "pending", cancelReason := none }

/-- Outcome of the axios call to the external Flask service: a parsed
success body, or the failure kinds the catch blocks distinguish
(`err.response` present / `err.code === ECONNREFUSED` / the 15s timeout,
whose axios error code is ECONNABORTED, not ECONNREFUSED). -/
inductive ApiCallOutcome where
  | success (crop prediction : String) (confidence : ℚ) (isMockFlag : Bool)
  | connRefused
  | timedOut
  | httpError (status : Nat)
  deriving Repr, DecidableEq

/-- Stored disease-prediction history record.  These are exactly the paths
of `predictionSchema` (src/models/Prediction.js): farmerId, imageUrl,
prediction, confidence — the schema declares **no** `isMock` path, so the
`isMock` value the route passes to the constructor is dropped by mongoose
strict mode and never stored (nor serialized in the response). -/
structure PredictionDoc where
  farmerId : Nat
  imageUrl : String
  prediction : String
  confidence : ℚ
  deriving Repr, DecidableEq

/-- Responses of `POST /api/predictions`. -/
inductive PredictRes where
  /-- 200 with the saved history document. -/
  | okDoc (d : PredictionDoc)
  /-- `err.response` relayed: status + "AI Service Error". -/
  | upstreamError (status : Nat)
  /-- 503 "AI Service Unavailable" (only for ECONNREFUSED). -/
  | serviceUnavailable
  /-- 500 "Server Error" (any other failure, timeouts included). -/
  | serverError
  deriving Repr, DecidableEq

/-- `POST /api/predictions` (src/routes/predictions.js:15-104), modelled as
a function of the external call's outcome and of the (random) local mock
generator's output `mockResult`.  On failure with `USE_MOCK_API = true` the
local mock result is used with `isMock = true`; with the flag off the error
is re-thrown and classified by the outer catch.  The saved document carries
only the schema's paths (no mock flag). -/
def diseasePredict (useMockApi : Bool) (outcome : ApiCallOutcome)
    (mockResult : String × ℚ) (uid : Nat) (imageUrl : String)
    (history : List PredictionDoc) : PredictRes × List PredictionDoc :=
  match outcome with
  | .success crop pred conf _ =>
      let d : PredictionDoc :=
        ⟨uid, imageUrl, crop ++ " - " ++ pred, conf⟩
      (.okDoc d, history ++ [d])
  | .httpError status =>
      if useMockApi then
        let d : PredictionDoc := ⟨uid, imageUrl, mockResult.1, mockResult.2⟩
        (.okDoc d, history ++ [d])
      else (.upstreamError status, history)
  | .connRefused =>
      if useMockApi then
        let d : PredictionDoc := ⟨uid, imageUrl, mockResult.1, mockResult.2⟩
        (.okDoc d, history ++ [d])
      else (.serviceUnavailable, history)
  | .timedOut =>
      if useMockApi then
        let d : PredictionDoc := ⟨uid, imageUrl, mockResult.1, mockResult.2⟩
        (.okDoc d, history ++ [d])
      else (.serverError, history)

/-- Stored yield-prediction history record (src/models/YieldPrediction.js):
unlike `predictionSchema`, this schema **does** declare `isMock`. -/
structure YieldPredictionDoc where
  farmerId : Nat
  crop : String
  predictedYieldKg : ℚ
  confidence : ℚ
  isMock : Bool
  deriving Repr, DecidableEq

/-- Parsed success body of the yield Flask call. -/
structure YieldApiBody where
  predictedYieldKg : ℚ
  confidence : ℚ
  isMockFlag : Bool
  deriving Repr, DecidableEq

/-- Outcome of the yield axios call. -/
inductive YieldCallOutcome where
  | success (body : YieldApiBody)
  | connRefused
  | timedOut
  | httpError (status : Nat)
  deriving Repr, DecidableEq

/-- Responses of `POST /api/yield-predictions`. -/
inductive YieldRes where
  | okDoc (d : YieldPredictionDoc)
  | upstreamError (status : Nat)
  | serviceUnavailable
  | serverError
  deriving Repr, DecidableEq

/-- `POST /api/yield-predictions` (src/routes/yield-predictions.js:15-142),
modelled as a function of the call outcome and of the local heuristic's
output `mockYield` (its randomized parts are inputs).  Here the saved
document does carry `isMock`. -/
def yieldPredict (useMockApi : Bool) (outcome : YieldCallOutcome)
    (mockYield : ℚ × ℚ) (uid : Nat) (crop : String)
    (history : List YieldPredictionDoc) : YieldRes × List YieldPredictionDoc :=
  match outcome with
  | .success body =>
      let d : YieldPredictionDoc :=
        ⟨uid, crop, body.predictedYieldKg, body.confidence, body.isMockFlag⟩
      (.okDoc d, history ++ [d])
  | .httpError status =>
      if useMockApi then
        let d : YieldPredictionDoc := ⟨uid, crop, mockYield.1, mockYield.2, true⟩
        (.okDoc d, history ++ [d])
      else (.upstreamError status, history)
  | .connRefused =>
      if useMockApi then
        let d : YieldPredictionDoc := ⟨uid, crop, mockYield.1, mockYield.2, true⟩
        (.okDoc d, history ++ [d])
      else (.serviceUnavailable, history)
  | .timedOut =>
      if useMockApi then
        let d : YieldPredictionDoc := ⟨uid, crop, mockYield.1, mockYield.2, true⟩
        (.okDoc d, history ++ [d])
      else (.serverError, history)

/-! ## Helper lemmas about the checkout loop -/

theorem productFindById_id {ps : List Product} {pid : Nat} {p : Product}
    (h : productFindById ps pid = some p) : p.id = pid := by
  have := List.find?_some h
  simpa using this

theorem productFindById_mem {ps : List Product} {pid : Nat} {p : Product}
    (h : productFindById ps pid = some p) : p ∈ ps :=
  List.mem_of_find?_eq_some h

/-- Saving a product does not disturb lookups of other ids. -/
theorem productFindById_save_ne {ps : List Product} {q : Product} {pid : Nat}
    (h : pid ≠ q.id) :
    productFindById (productSave ps q) pid = productFindById ps pid := by
  induction ps with
  | nil => rfl
  | cons r rs ih =>
    have hstep : productSave (r :: rs) q =
        (if (r.id == q.id) = true then productPreSave q else r) :: productSave rs q := rfl
    rw [hstep]
    by_cases hq : r.id = q.id
    · rw [if_pos (by simpa using hq)]
      have h1 : ((productPreSave q).id == pid) = false := by
        simp only [productPreSave, beq_eq_false_iff_ne]
        exact fun hc => h hc.symm
      have h2 : (r.id == pid) = false := by
        simp only [beq_eq_false_iff_ne, hq]
        exact fun hc => h hc.symm
      unfold productFindById at ih ⊢
      simp only [List.find?, h1, h2]
      exact ih
    · rw [if_neg (by simpa using hq)]
      by_cases hr : r.id = pid
      · have h1 : (r.id == pid) = true := by simpa using hr
        unfold productFindById
        simp only [List.find?, h1]
      · have h1 : (r.id == pid) = false := by simpa using hr
        unfold productFindById at ih ⊢
        simp only [List.find?, h1]
        exact ih

theorem groupKeys_pushGroup (gs : List (Nat × List OrderItem)) (f : Nat)
    (oi : OrderItem) : groupKeys (pushGroup gs f oi) = insFarmer (groupKeys gs) f := by
  induction gs with
  | nil => simp [pushGroup, groupKeys, insFarmer]
  | cons g tl ih =>
    obtain ⟨k, its⟩ := g
    by_cases hk : k = f
    · simp [pushGroup, hk, groupKeys, insFarmer]
    · simp only [pushGroup, if_neg hk, groupKeys, List.map_cons] at *
      rw [ih]
      simp only [insFarmer, List.mem_cons]
      by_cases hf : f ∈ List.map Prod.fst tl
      · simp [hf, Ne.symm hk]
      · simp [hf, Ne.symm hk]

theorem groupsSum_pushGroup (gs : List (Nat × List OrderItem)) (f : Nat)
    (oi : OrderItem) :
    groupsSum (pushGroup gs f oi) = groupsSum gs + oi.price * oi.quantity := by
  induction gs with
  | nil => simp [pushGroup, groupsSum, itemsSum]
  | cons g tl ih =>
    obtain ⟨k, its⟩ := g
    by_cases hk : k = f
    · simp only [pushGroup, if_pos hk, groupsSum, List.map_cons, List.sum_cons,
        itemsSum, List.map_append, List.sum_append, List.map_nil,
        List.sum_nil] at *
      ring
    · simp only [pushGroup, if_neg hk, groupsSum, List.map_cons, List.sum_cons] at *
      rw [ih]
      ring

/-- Well-formedness of a farmer grouping with respect to the original
product catalogue `ps0` and the cart items `L`: every grouped snapshot comes
from a cart item whose product resolves to a product of that group's
farmer. -/
def GroupsWF (ps0 : List Product) (L : List CartItem)
    (groups : List (Nat × List OrderItem)) : Prop :=
  ∀ g ∈ groups, ∀ it ∈ g.2, ∃ ci ∈ L, ∃ p,
    productFindById ps0 ci.product = some p ∧ p.farmer = g.1 ∧
    it = ⟨p.id, ci.quantity, p.price, p.name⟩

theorem groupsWF_pushGroup {ps0 : List Product} {L : List CartItem}
    {groups : List (Nat × List OrderItem)} {f : Nat} {oi : OrderItem}
    (hWF : GroupsWF ps0 L groups)
    (hoi : ∃ ci ∈ L, ∃ p, productFindById ps0 ci.product = some p ∧
      p.farmer = f ∧ oi = ⟨p.id, ci.quantity, p.price, p.name⟩) :
    GroupsWF ps0 L (pushGroup groups f oi) := by
  induction groups with
  | nil =>
    intro g hg it hit
    simp only [pushGroup, List.mem_singleton] at hg
    subst hg
    simp only [List.mem_singleton] at hit
    subst hit
    exact hoi
  | cons hd tl ih =>
    obtain ⟨k, its⟩ := hd
    intro g hg it hit
    by_cases hk : k = f
    · simp only [pushGroup, if_pos hk, List.mem_cons] at hg
      rcases hg with hg | hg
      · subst hg
        simp only [List.mem_append, List.mem_singleton] at hit
        rcases hit with hit | hit
        · exact hWF (k, its) (by simp) it hit
        · subst hit
          obtain ⟨ci, hci, p, hp, hpf, hoieq⟩ := hoi
          exact ⟨ci, hci, p, hp, by simp [hpf, hk], hoieq⟩
      · exact hWF g (by simp [hg]) it hit
    · simp only [pushGroup, if_neg hk, List.mem_cons] at hg
      rcases hg with hg | hg
      · subst hg
        exact hWF (k, its) (by simp) it hit
      · exact ih (fun g' hg' => hWF g' (by simp [hg'])) g hg it hit

theorem foldl_add_mul_eq_sum (l : List OrderItem) (c : ℤ) :
    l.foldl (fun t it => t + it.price * it.quantity) c =
      c + (l.map (fun it => it.price * it.quantity)).sum := by
  induction l generalizing c with
  | nil => simp
  | cons a tl ih =>
    simp only [List.foldl_cons, List.map_cons, List.sum_cons, ih]
    ring

theorem farmerTotal_eq_itemsSum (its : List OrderItem) :
    farmerTotal its = itemsSum its := by
  simp [farmerTotal, itemsSum, foldl_add_mul_eq_sum]

theorem mkOrdersFrom_length (uid : Nat) (req : CheckoutReq) :
    ∀ (gs : List (Nat × List OrderItem)) (n : Nat),
      (mkOrdersFrom uid req n gs).length = gs.length
  | [], _ => rfl
  | _ :: rest, n => by
      simp [mkOrdersFrom, mkOrdersFrom_length uid req rest (n + 1)]

theorem mkOrdersFrom_totalSum (uid : Nat) (req : CheckoutReq) :
    ∀ (gs : List (Nat × List OrderItem)) (n : Nat),
      ((mkOrdersFrom uid req n gs).map (·.totalAmount)).sum = groupsSum gs
  | [], _ => by simp [mkOrdersFrom, groupsSum]
  | (f, its) :: rest, n => by
      simp only [mkOrdersFrom, List.map_cons, List.sum_cons,
        mkOrdersFrom_totalSum uid req rest (n + 1)]
      rw [farmerTotal_eq_itemsSum]
      rfl

theorem mkOrdersFrom_mem (uid : Nat) (req : CheckoutReq) :
    ∀ (gs : List (Nat × List OrderItem)) (n : Nat) (o : Order),
      o ∈ mkOrdersFrom uid req n gs →
      ∃ g ∈ gs, o.farmer = some g.1 ∧ o.items = g.2 ∧ o.consumer = uid
  | [], _, o, h => by simp [mkOrdersFrom] at h
  | (f, its) :: rest, n, o, h => by
      simp only [mkOrdersFrom, List.mem_cons] at h
      rcases h with h | h
      · exact ⟨(f, its), by simp, by simp [h]⟩
      · obtain ⟨g, hg, hprops⟩ := mkOrdersFrom_mem uid req rest (n + 1) o h
        exact ⟨g, by simp [hg], hprops⟩

/-- Specification of the per-item checkout loop on the all-valid path:
it succeeds, its grouping keys are the distinct farmers in first-occurrence
order, the grouped snapshots sum to the cart total, and well-formedness of
the grouping is preserved. -/
theorem checkoutItems_ok_spec (ps0 : List Product) (items : List CartItem) :
    ∀ (ps : List Product) (groups : List (Nat × List OrderItem)),
    (items.map (·.product)).Nodup →
    (∀ ci ∈ items, productFindById ps ci.product = productFindById ps0 ci.product) →
    (∀ ci ∈ items, ∃ p, productFindById ps0 ci.product = some p ∧
      ci.quantity ≤ p.quantity) →
    ∃ groups' ps',
      checkoutItems items ps groups = .ok (groups', ps') ∧
      groupKeys groups' = distinctFarmersFrom ps0 items (groupKeys groups) ∧
      groupsSum groups' = groupsSum groups + cartItemsTotal ps0 items ∧
      (∀ L, (∀ ci ∈ items, ci ∈ L) → GroupsWF ps0 L groups →
        GroupsWF ps0 L groups') := by
  induction items with
  | nil =>
    intro ps groups _ _ _
    exact ⟨groups, ps, rfl, rfl, by simp [cartItemsTotal], fun L _ h => h⟩
  | cons ci rest ih =>
    intro ps groups hnd hres hstock
    obtain ⟨p, hp, hq⟩ := hstock ci (by simp)
    have hfind : productFindById ps ci.product = some p := by
      rw [hres ci (by simp)]; exact hp
    have hnotlt : ¬ (p.quantity < ci.quantity) := not_lt.mpr hq
    have hpid : p.id = ci.product := productFindById_id hp
    have hnd0 : ci.product ∉ rest.map (·.product) ∧ (rest.map (·.product)).Nodup := by
      simpa [List.nodup_cons] using hnd
    have hres' : ∀ cj ∈ rest,
        productFindById (productSave ps { p with quantity := p.quantity - ci.quantity })
          cj.product = productFindById ps0 cj.product := by
      intro cj hcj
      rw [productFindById_save_ne, hres cj (by simp [hcj])]
      show cj.product ≠ p.id
      rw [hpid]
      intro hc
      exact hnd0.1 (hc ▸ List.mem_map_of_mem (·.product) hcj)
    have hstock' : ∀ cj ∈ rest, ∃ q, productFindById ps0 cj.product = some q ∧
        cj.quantity ≤ q.quantity := fun cj hcj => hstock cj (by simp [hcj])
    obtain ⟨groups', psf, heq, hkeys, hsum, hwf⟩ :=
      ih (productSave ps { p with quantity := p.quantity - ci.quantity })
        (pushGroup groups p.farmer ⟨p.id, ci.quantity, p.price, p.name⟩)
        hnd0.2 hres' hstock'
    refine ⟨groups', psf, ?_, ?_, ?_, ?_⟩
    · show checkoutItems (ci :: rest) ps groups = .ok (groups', psf)
      unfold checkoutItems
      rw [hfind]
      simp only [if_neg hnotlt]
      exact heq
    · rw [hkeys, groupKeys_pushGroup]
      simp [distinctFarmersFrom, hp]
    · rw [hsum, groupsSum_pushGroup]
      simp only [cartItemsTotal, List.map_cons, List.sum_cons, hp]
      ring
    · intro L hL hWF
      refine hwf L (fun cj hcj => hL cj (by simp [hcj])) ?_
      exact groupsWF_pushGroup hWF ⟨ci, hL ci (by simp), p, hp, rfl, rfl⟩

/-- Specification of the per-item checkout loop when some cart item requests
more than the available stock: the loop reports the first offender's name,
available and requested quantities. -/
theorem checkoutItems_insufficient_spec (ps0 : List Product)
    (items : List CartItem) :
    ∀ (ps : List Product) (groups : List (Nat × List OrderItem)),
    (items.map (·.product)).Nodup →
    (∀ ci ∈ items, productFindById ps ci.product = productFindById ps0 ci.product) →
    (∀ ci ∈ items, (productFindById ps0 ci.product).isSome) →
    (∃ ci ∈ items, ∃ p, productFindById ps0 ci.product = some p ∧
      p.quantity < ci.quantity) →
    ∃ n a r, checkoutItems items ps groups = .error (.insufficientStock n a r) ∧
      a < r ∧ ∃ ci ∈ items, ∃ p, productFindById ps0 ci.product = some p ∧
        p.name = n ∧ p.quantity = a ∧ ci.quantity = r := by
  induction items with
  | nil =>
    intro ps groups _ _ _ hbad
    simp at hbad
  | cons ci rest ih =>
    intro ps groups hnd hres hsome hbad
    obtain ⟨p, hp⟩ := Option.isSome_iff_exists.mp (hsome ci (by simp))
    have hfind : productFindById ps ci.product = some p := by
      rw [hres ci (by simp)]; exact hp
    by_cases hlt : p.quantity < ci.quantity
    · refine ⟨p.name, p.quantity, ci.quantity, ?_, hlt,
        ci, by simp, p, hp, rfl, rfl, rfl⟩
      unfold checkoutItems
      rw [hfind]
      simp only [if_pos hlt]
    · have hpid : p.id = ci.product := productFindById_id hp
      have hnd0 : ci.product ∉ rest.map (·.product) ∧
          (rest.map (·.product)).Nodup := by
        simpa [List.nodup_cons] using hnd
      have hres' : ∀ cj ∈ rest,
          productFindById
            (productSave ps { p with quantity := p.quantity - ci.quantity })
            cj.product = productFindById ps0 cj.product := by
        intro cj hcj
        rw [productFindById_save_ne, hres cj (by simp [hcj])]
        show cj.product ≠ p.id
        rw [hpid]
        intro hc
        exact hnd0.1 (hc ▸ List.mem_map_of_mem (·.product) hcj)
      have hsome' : ∀ cj ∈ rest, (productFindById ps0 cj.product).isSome :=
        fun cj hcj => hsome cj (by simp [hcj])
      have hbad' : ∃ cj ∈ rest, ∃ q, productFindById ps0 cj.product = some q ∧
          q.quantity < cj.quantity := by
        obtain ⟨cj, hcj, q, hq, hqq⟩ := hbad
        rcases List.mem_cons.mp hcj with hcj | hcj
        · subst hcj
          rw [hp] at hq
          cases hq
          exact absurd hqq hlt
        · exact ⟨cj, hcj, q, hq, hqq⟩
      obtain ⟨n, a, r, heq, hair, cj, hcj, q, hq⟩ :=
        ih _ (pushGroup groups p.farmer ⟨p.id, ci.quantity, p.price, p.name⟩)
          hnd0.2 hres' hsome' hbad'
      refine ⟨n, a, r, ?_, hair, cj, by simp [hcj], q, hq⟩
      unfold checkoutItems
      rw [hfind]
      simp only [if_neg hlt]
      exact heq

/-- Bool views of the checkout response, to state results without naming
the carried data. -/
def CheckoutRes.isBoundaryValidationErr : CheckoutRes → Bool
  | .paymentRequired => true
  | .shippingRequired => true
  | _ => false

/-- Whether a checkout response is the 201 success. -/
def CheckoutRes.isCreated : CheckoutRes → Bool
  | .created _ => true
  | _ => false

/-- Whether a checkout response is the insufficient-stock 400. -/
def CheckoutRes.isInsufficientStock : CheckoutRes → Bool
  | .insufficientStock _ _ _ => true
  | _ => false

/-- The orders carried by a 201 checkout response ([] otherwise). -/
def checkoutOrders : CheckoutRes → List Order
  | .created os => os
  | _ => []

/-- Unfolding of the checkout handler past its boundary checks under a
found, non-empty cart. -/
theorem checkout_run (st : DbState) (uid : Nat) (req : CheckoutReq)
    (cart : Cart)
    (hpm : truthyStr req.paymentMethod = true)
    (hsh : shippingOkB req.shippingDetails = true)
    (hcart : cartFindOne st.carts uid = some cart)
    (hne : cart.items ≠ []) :
    checkout st uid req =
      (match checkoutItems cart.items st.products [] with
       | .error .productNotFound => (.productNotFound, st)
       | .error (.insufficientStock n a r) => (.insufficientStock n a r, st)
       | .ok (groups, products') =>
           (.created (mkOrdersFrom uid req st.orders.length groups),
            { products := products',
              carts := cartReplace st.carts
                (cartPreSaveApply st.products st.carts cart []),
              orders := st.orders ++
                mkOrdersFrom uid req st.orders.length groups })) := by
  have hie : cart.items.isEmpty = false := by
    cases h : cart.items with
    | nil => exact absurd h hne
    | cons a l => rfl
  simp only [checkout, hpm, hsh, hcart, hie, Bool.true_eq_false,
    if_false, Bool.false_eq_true]

/-! ## Claim theorems -/

/-- C1: for every non-empty cart whose items resolve to products owned by N
distinct farmers (N = `(distinctFarmers st.products cart.items).length`) and
whose every item satisfies quantity ≤ on-hand, checkout succeeds and creates
exactly N orders, each order containing only snapshots (product id, name,
price, quantity) of cart items owned by that order's single farmer, and the
sum of `totalAmount` over the created orders equals Σ price×quantity over
the original cart's items. -/
theorem checkout_splits_per_farmer
    (st : DbState) (uid : Nat) (req : CheckoutReq) (cart : Cart)
    (hpm : truthyStr req.paymentMethod = true)
    (hsh : shippingOkB req.shippingDetails = true)
    (hcart : cartFindOne st.carts uid = some cart)
    (hne : cart.items ≠ [])
    (hnd : (cart.items.map (·.product)).Nodup)
    (hstock : ∀ ci ∈ cart.items, ∃ p,
      productFindById st.products ci.product = some p ∧
      ci.quantity ≤ p.quantity) :
    ∃ os st',
      checkout st uid req = (.created os, st') ∧
      os.length = (distinctFarmers st.products cart.items).length ∧
      (∀ o ∈ os, o.consumer = uid ∧ ∀ it ∈ o.items, ∃ ci ∈ cart.items, ∃ p,
        productFindById st.products ci.product = some p ∧
        o.farmer = some p.farmer ∧
        it = ⟨p.id, ci.quantity, p.price, p.name⟩) ∧
      (os.map (·.totalAmount)).sum = cartItemsTotal st.products cart.items ∧
      st'.orders = st.orders ++ os := by
  obtain ⟨groups', ps', heq, hkeys, hsum, hwf⟩ :=
    checkoutItems_ok_spec st.products cart.items st.products []
      hnd (fun _ _ => rfl) hstock
  have hrun := checkout_run st uid req cart hpm hsh hcart hne
  rw [heq] at hrun
  refine ⟨mkOrdersFrom uid req st.orders.length groups', _, hrun, ?_, ?_, ?_, rfl⟩
  · rw [mkOrdersFrom_length]
    have : groups'.length = (groupKeys groups').length := by
      simp [groupKeys]
    rw [this, hkeys]
    rfl
  · intro o ho
    obtain ⟨g, hg, hfarm, hitems, hcons⟩ :=
      mkOrdersFrom_mem uid req groups' st.orders.length o ho
    refine ⟨hcons, fun it hit => ?_⟩
    have hWFempty : GroupsWF st.products cart.items [] := by
      intro g hg
      simp at hg
    obtain ⟨ci, hci, p, hp, hpf, hsnap⟩ :=
      hwf cart.items (fun _ h => h) hWFempty g hg it (hitems ▸ hit)
    exact ⟨ci, hci, p, hp, by rw [hfarm, hpf], hsnap⟩
  · rw [mkOrdersFrom_totalSum, hsum]
    simp [groupsSum]

/-- C2: when some cart item requests more than the product's on-hand
quantity, checkout fails with the insufficient-stock response carrying the
offending product's name, its available quantity and the requested quantity
(with available < requested), the state is completely unchanged (zero orders
created, zero on-hand changes), and in particular no on-hand quantity
becomes negative. -/
theorem checkout_insufficient_atomic
    (st : DbState) (uid : Nat) (req : CheckoutReq) (cart : Cart)
    (hpm : truthyStr req.paymentMethod = true)
    (hsh : shippingOkB req.shippingDetails = true)
    (hcart : cartFindOne st.carts uid = some cart)
    (hnd : (cart.items.map (·.product)).Nodup)
    (hsome : ∀ ci ∈ cart.items, (productFindById st.products ci.product).isSome)
    (hbad : ∃ ci ∈ cart.items, ∃ p,
      productFindById st.products ci.product = some p ∧
      p.quantity < ci.quantity) :
    ∃ n a r, checkout st uid req = (.insufficientStock n a r, st) ∧ a < r ∧
      (∃ ci ∈ cart.items, ∃ p,
        productFindById st.products ci.product = some p ∧
        p.name = n ∧ p.quantity = a ∧ ci.quantity = r) ∧
      (checkout st uid req).2.orders = st.orders ∧
      (checkout st uid req).2.products = st.products ∧
      ((∀ q ∈ st.products, 0 ≤ q.quantity) →
        ∀ q ∈ (checkout st uid req).2.products, 0 ≤ q.quantity) := by
  have hne : cart.items ≠ [] := by
    obtain ⟨ci, hci, _⟩ := hbad
    intro hnil
    rw [hnil] at hci
    simp at hci
  obtain ⟨n, a, r, heq, hair, hwit⟩ :=
    checkoutItems_insufficient_spec st.products cart.items st.products []
      hnd (fun _ _ => rfl) hsome hbad
  have hrun := checkout_run st uid req cart hpm hsh hcart hne
  rw [heq] at hrun
  refine ⟨n, a, r, hrun, hair, hwit, by rw [hrun], by rw [hrun], ?_⟩
  intro hnn q hq
  rw [hrun] at hq
  exact hnn q hq

/-- A delivered order owned by farmer 7, used as a concrete test order. -/
def ordDelivered : Order :=
  { id := 5, consumer := 2, farmer := some 7, items := [],
    totalAmount := 0, paymentMethod := some "online",
    status := "delivered", cancelReason := none }

/-- A concrete state holding only `ordDelivered`. -/
def stOrd : DbState := ⟨[], [], [ordDelivered]⟩

/-- C3 counterexample: the stored order has status `delivered`, yet its
farmer's `PUT /:id` with status `cancelled` succeeds and the stored status
becomes `cancelled` — a delivered order does change status, contradicting
the claimed terminal/forward-only machine. -/
theorem deliveredOrder_cancelled_counterexample :
    (orderFindById stOrd.orders 5).map (·.status) = some "delivered" ∧
    (updateOrderStatus stOrd 7 5 "cancelled" (some "mistake")).1 =
      .ok { id := 5, consumer := 2, farmer := some 7, items := [],
            totalAmount := 0, paymentMethod := some "online",
            status := "cancelled", cancelReason := some "mistake" } ∧
    (orderFindById
      (updateOrderStatus stOrd 7 5 "cancelled" (some "mistake")).2.orders
      5).map (·.status) = some "cancelled" := by
  refine ⟨rfl, rfl, rfl⟩

/-- C3 (amended): the status-update handler enforces only membership of the
requested status in {confirmed, processing, shipped, delivered, cancelled}
and ownership; for an existing order in any current status — `delivered`
included — the owning farmer's request overwrites the status with any value
of that set (so transitions are not restricted to the forward chain,
`delivered` is not terminal, and `cancelled` is reachable from every
state). -/
theorem setStatus_unrestricted
    (st : DbState) (actorId oid : Nat) (s : String) (r : Option String)
    (o : Order)
    (ho : orderFindById st.orders oid = some o)
    (hf : o.farmer = some actorId)
    (hs : s ∈ allowedUpdateStatuses) :
    updateOrderStatus st actorId oid s r =
      (.ok (orderSetStatus o s r),
       { st with orders := orderSave st.orders (orderSetStatus o s r) }) ∧
    (orderSetStatus o s r).status = s := by
  constructor
  · unfold updateOrderStatus
    rw [if_neg (not_not_intro hs)]
    simp only [ho, hf]
    rw [if_neg (by simp)]
  · rfl

/-- C3 witness: the delivered order's own farmer moves it backwards to
`shipped`. -/
theorem setStatus_unrestricted_witness :
    updateOrderStatus stOrd 7 5 "shipped" none =
      (.ok (orderSetStatus ordDelivered "shipped" none),
       { stOrd with
         orders := orderSave stOrd.orders
           (orderSetStatus ordDelivered "shipped" none) }) :=
  (setStatus_unrestricted stOrd 7 5 "shipped" none ordDelivered rfl rfl
    (by decide)).1

/-- C6: for every existing order, every actor and every status in the
enumerated set, the status-update handler answers 401 Not authorized and
leaves the state untouched whenever the actor is not the order's farmer,
and updates the status only when the actor is that farmer. -/
theorem setStatus_ownership
    (st : DbState) (actorId oid : Nat) (s : String) (r : Option String)
    (o : Order) (f : Nat)
    (ho : orderFindById st.orders oid = some o)
    (hf : o.farmer = some f)
    (hs : s ∈ allowedUpdateStatuses) :
    (f ≠ actorId →
      updateOrderStatus st actorId oid s r = (.notAuthorized, st)) ∧
    (f = actorId →
      updateOrderStatus st actorId oid s r =
        (.ok (orderSetStatus o s r),
         { st with orders := orderSave st.orders (orderSetStatus o s r) })) := by
  constructor
  · intro hne
    unfold updateOrderStatus
    rw [if_neg (not_not_intro hs)]
    simp only [ho, hf]
    rw [if_pos hne]
  · intro heqf
    subst heqf
    unfold updateOrderStatus
    rw [if_neg (not_not_intro hs)]
    simp only [ho, hf]
    rw [if_neg (by simp)]

/-- C6 witness: actor 9 (not the farmer) is refused with the state
unchanged; the owning farmer 7 gets the update. -/
theorem setStatus_ownership_witness :
    updateOrderStatus stOrd 9 5 "confirmed" none = (.notAuthorized, stOrd) ∧
    updateOrderStatus stOrd 7 5 "confirmed" none =
      (.ok (orderSetStatus ordDelivered "confirmed" none),
       { stOrd with
         orders := orderSave stOrd.orders
           (orderSetStatus ordDelivered "confirmed" none) }) :=
  ⟨(setStatus_ownership stOrd 9 5 "confirmed" none ordDelivered 7 rfl rfl
      (by decide)).1 (by decide),
   (setStatus_ownership stOrd 7 5 "confirmed" none ordDelivered 7 rfl rfl
      (by decide)).2 rfl⟩

/-- A fully-populated checkout request body. -/
def reqFull : CheckoutReq :=
  ⟨some "online",
   some ⟨some "Asha Rao", some "12 Lake Road", some "Pune", some "MH",
         some "411001", some "9999999999"⟩,
   none⟩

/-- Two available products of two distinct farmers. -/
def prodApples : Product := ⟨1, 100, "Apples", 10, 5, "available", 0⟩

/-- Second product, owned by another farmer. -/
def prodBeets : Product := ⟨2, 200, "Beets", 5, 3, "available", 0⟩

/-- A cart holding one line of each of the two farmers' products. -/
def cartTwoFarmers : Cart := ⟨1, 1, [⟨1, 1, 2⟩, ⟨2, 2, 1⟩], 25⟩

/-- State for the multi-farmer checkout witness. -/
def stTwoFarmers : DbState := ⟨[prodApples, prodBeets], [cartTwoFarmers], []⟩

/-- C1 witness: the 2-farmer cart checks out into 2 orders whose totals sum
to the cart total. -/
theorem checkout_splits_per_farmer_witness :
    (checkout stTwoFarmers 1 reqFull).1.isCreated = true ∧
    (checkoutOrders (checkout stTwoFarmers 1 reqFull).1).length =
      (distinctFarmers stTwoFarmers.products cartTwoFarmers.items).length ∧
    ((checkoutOrders (checkout stTwoFarmers 1 reqFull).1).map
      (·.totalAmount)).sum =
      cartItemsTotal stTwoFarmers.products cartTwoFarmers.items := by
  obtain ⟨os, st', h1, h2, _, h4, _⟩ :=
    checkout_splits_per_farmer stTwoFarmers 1 reqFull cartTwoFarmers
      rfl rfl rfl (by decide) (by decide)
      (by
        intro ci hci
        rcases List.mem_cons.mp hci with h | h
        · subst h
          exact ⟨prodApples, rfl, by decide⟩
        · have h' : ci = (⟨2, 2, 1⟩ : CartItem) := by simpa using h
          subst h'
          exact ⟨prodBeets, rfl, by decide⟩)
  rw [h1]
  exact ⟨rfl, by simpa [checkoutOrders] using h2,
    by simpa [checkoutOrders] using h4⟩

/-- Product with on-hand 3 (the spec's scenario: requested 5 > available 3). -/
def prodCarrots : Product := ⟨3, 300, "Carrots", 4, 3, "available", 0⟩

/-- Cart requesting 5 of a product with only 3 on hand. -/
def cartOverdraw : Cart := ⟨2, 4, [⟨1, 3, 5⟩], 0⟩

/-- State for the insufficient-stock witness. -/
def stOverdraw : DbState := ⟨[prodCarrots], [cartOverdraw], []⟩

/-- C2 witness: the over-drawing cart's checkout answers insufficient stock
and leaves the state untouched. -/
theorem checkout_insufficient_atomic_witness :
    (checkout stOverdraw 4 reqFull).1.isInsufficientStock = true ∧
    (checkout stOverdraw 4 reqFull).2 = stOverdraw := by
  obtain ⟨n, a, r, h1, _, _, _, _, _⟩ :=
    checkout_insufficient_atomic stOverdraw 4 reqFull cartOverdraw
      rfl rfl rfl (by decide) (by decide)
      ⟨⟨1, 3, 5⟩, by decide, prodCarrots, rfl, by decide⟩
  rw [h1]
  exact ⟨rfl, rfl⟩

/-- An available product for the cart-removal state. -/
def prodOnion : Product := ⟨4, 400, "Onions", 10, 9, "available", 0⟩

/-- A cart of user 6 holding one item with subdocument id 10. -/
def cartOneItem : Cart := ⟨3, 6, [⟨10, 4, 2⟩], 20⟩

/-- State for the removeItem claims. -/
def stRemove : DbState := ⟨[prodOnion], [cartOneItem], []⟩

/-- C5 counterexample: deleting item 10 twice: the second call answers 200
with the cart (not a 404 NotFound), and the stored cart is identical before
and after the second call. -/
theorem removeItem_no_notFound_counterexample :
    (deleteCartItem stRemove 6 10).1 = .ok ⟨3, 6, [], 20⟩ ∧
    (deleteCartItem (deleteCartItem stRemove 6 10).2 6 10).1 =
      .ok ⟨3, 6, [], 20⟩ ∧
    (deleteCartItem (deleteCartItem stRemove 6 10).2 6 10).2 =
      (deleteCartItem stRemove 6 10).2 := by
  refine ⟨rfl, rfl, rfl⟩

/-- C5 (amended): deleting an item id that is not in the user's cart does
not fail with NotFound: the handler filters nothing out and answers 200 with
the cart unchanged (404 arises only when the user has no cart); hence the
second of two deletes of the same id returns the already-filtered cart
unchanged. -/
theorem removeItem_absent_silent
    (st : DbState) (uid itemId : Nat) (cart : Cart)
    (hc : cartFindOne st.carts uid = some cart)
    (habs : ∀ it ∈ cart.items, it.id ≠ itemId) :
    deleteCartItem st uid itemId =
      (.ok cart, { st with carts := cartReplace st.carts cart }) := by
  have hfil : cart.items.filter (fun it => it.id ≠ itemId) = cart.items :=
    List.filter_eq_self.mpr (fun a ha => by simpa using habs a ha)
  unfold deleteCartItem
  simp only [hc]
  unfold cartRemoveItem
  rw [hfil]
  unfold cartPreSaveApply
  rw [if_pos rfl]

/-- C5 witness: deleting the absent item id 99 answers 200 with the cart
unchanged. -/
theorem removeItem_absent_silent_witness :
    deleteCartItem stRemove 6 99 =
      (.ok cartOneItem,
       { stRemove with carts := cartReplace stRemove.carts cartOneItem }) :=
  removeItem_absent_silent stRemove 6 99 cartOneItem rfl (by decide)

/-- Product for the stale-cart-total state. -/
def prodTomato : Product := ⟨5, 500, "Tomatoes", 10, 9, "available", 0⟩

/-- State with the tomato product and no carts yet. -/
def stFreshCart : DbState := ⟨[prodTomato], [], []⟩

/-- C4: (a) adding the first item to a lazily-created cart stores a derived
total of 0 while the cart's current items sum to 20 — the pre-save hook read
the pre-save database state, where the cart does not exist yet; (b) after a
successful checkout empties the cart, the stored total is the *old* items'
sum (20), not 0 — the hook read the pre-transaction items. -/
theorem cartTotal_stale_bug :
    (addToCart stFreshCart 8 5 2).1 = .ok ⟨1, 8, [⟨1, 5, 2⟩], 0⟩ ∧
    cartItemsTotal stFreshCart.products [⟨1, 5, 2⟩] = 20 ∧ (20 : ℤ) ≠ 0 ∧
    cartFindOne
      (checkout ⟨[prodTomato], [⟨7, 9, [⟨1, 5, 2⟩], 20⟩], []⟩ 9 reqFull).2.carts
      9 = some ⟨7, 9, [], 20⟩ := by
  refine ⟨rfl, by norm_num [cartItemsTotal, productFindById, prodTomato,
    stFreshCart, List.find?], by norm_num, rfl⟩

/-- The status/quantity consistency property claimed for products. -/
def statusMatchesQuantity (p : Product) : Prop :=
  (p.status = "available" ↔ 0 < p.quantity) ∧
  (p.status = "sold_out" ↔ p.quantity = 0)

/-- Product for the status-bypass state. -/
def prodPotato : Product := ⟨6, 600, "Potatoes", 10, 5, "available", 0⟩

/-- State with only the potato product. -/
def stPotato : DbState := ⟨[prodPotato], [], []⟩

/-- C7: the owner's PUT /api/products/:id setting quantity to 0 goes through
`findByIdAndUpdate`, which skips the pre-save status hook: the stored
product ends with quantity 0 and status still "available", violating the
claimed invariant — while the save-path hook (`productPreSave`) would have
made it consistent. -/
theorem productStatus_bypass_bug :
    (updateProduct stPotato 600 6 ⟨none, none, some 0⟩).1 =
      .ok ⟨6, 600, "Potatoes", 10, 0, "available", 0⟩ ∧
    productFindById
      (updateProduct stPotato 600 6 ⟨none, none, some 0⟩).2.products 6 =
      some ⟨6, 600, "Potatoes", 10, 0, "available", 0⟩ ∧
    ¬ statusMatchesQuantity ⟨6, 600, "Potatoes", 10, 0, "available", 0⟩ ∧
    statusMatchesQuantity
      (productPreSave ⟨6, 600, "Potatoes", 10, 0, "available", 0⟩) := by
  refine ⟨rfl, rfl, by unfold statusMatchesQuantity; decide,
    by unfold statusMatchesQuantity productPreSave; decide⟩

/-- Checkout request whose shipping details carry an address but no full
name, city, state, postal code or phone. -/
def reqNoFullName : CheckoutReq :=
  ⟨some "online", some ⟨none, some "12 Lake Road", none, none, none, none⟩,
   none⟩

/-- Checkout request whose payment method is outside the enumerated set. -/
def reqBadPayment : CheckoutReq :=
  ⟨some "bitcoin",
   some ⟨some "Asha Rao", some "12 Lake Road", some "Pune", some "MH",
         some "411001", some "9999999999"⟩,
   none⟩

/-- A one-product, one-cart state for the boundary-validation claims. -/
def stSimple : DbState :=
  ⟨[⟨7, 700, "Rice", 10, 5, "available", 0⟩],
   [⟨5, 11, [⟨1, 7, 2⟩], 20⟩], []⟩

/-- C8 counterexample: a request missing every mandatory shipping field but
the address, and a request whose payment method is not in the enumerated
set, are both *not* rejected by the checkout boundary: checkout proceeds to
read the cart, write orders and decrement stock (the resulting state
differs from the initial one). -/
theorem checkout_validation_counterexample :
    reqNoFullName.shippingDetails.map (·.fullName) = some none ∧
    (checkout stSimple 11 reqNoFullName).1.isBoundaryValidationErr = false ∧
    (checkout stSimple 11 reqNoFullName).1.isCreated = true ∧
    (checkout stSimple 11 reqNoFullName).2 ≠ stSimple ∧
    reqBadPayment.paymentMethod = some "bitcoin" ∧
    (checkout stSimple 11 reqBadPayment).1.isBoundaryValidationErr = false ∧
    (checkout stSimple 11 reqBadPayment).1.isCreated = true := by
  refine ⟨rfl, rfl, rfl, by decide, rfl, rfl, rfl⟩

/-- C8 (amended): the checkout boundary rejects with a 400 validation error
exactly the requests whose payment method is absent or empty, or whose
shipping details are absent or lack a truthy address — and such a rejection
leaves the state untouched; membership of the payment method in the
enumerated set and the presence of the other shipping fields are not
checked at this boundary. -/
theorem checkout_boundary_validation (st : DbState) (uid : Nat)
    (req : CheckoutReq) :
    ((checkout st uid req).1.isBoundaryValidationErr = true ↔
      (truthyStr req.paymentMethod = false ∨
        shippingOkB req.shippingDetails = false)) ∧
    ((truthyStr req.paymentMethod = false ∨
        shippingOkB req.shippingDetails = false) →
      (checkout st uid req).2 = st) := by
  by_cases h1 : truthyStr req.paymentMethod = false
  · have he : checkout st uid req = (.paymentRequired, st) := by
      unfold checkout
      rw [if_pos h1]
    rw [he]
    exact ⟨⟨fun _ => Or.inl h1, fun _ => rfl⟩, fun _ => rfl⟩
  · have h1' : truthyStr req.paymentMethod = true := by
      revert h1
      cases truthyStr req.paymentMethod <;> simp
    by_cases h2 : shippingOkB req.shippingDetails = false
    · have he : checkout st uid req = (.shippingRequired, st) := by
        unfold checkout
        rw [if_neg h1, if_pos h2]
      rw [he]
      exact ⟨⟨fun _ => Or.inr h2, fun _ => rfl⟩, fun _ => rfl⟩
    · have h2' : shippingOkB req.shippingDetails = true := by
        revert h2
        cases shippingOkB req.shippingDetails <;> simp
      have hnb : (checkout st uid req).1.isBoundaryValidationErr = false := by
        unfold checkout
        rw [if_neg h1, if_neg h2]
        rcases hc : cartFindOne st.carts uid with _ | cart
        · rfl
        · simp only
          by_cases hie : cart.items.isEmpty = true
          · rw [if_pos hie]
            rfl
          · rw [if_neg hie]
            rcases hco : checkoutItems cart.items st.products [] with e | gp
            · cases e <;> rfl
            · obtain ⟨groups, products'⟩ := gp
              rfl
      refine ⟨?_, ?_⟩
      · rw [hnb]
        constructor
        · intro hcontr
          exact absurd hcontr (by simp)
        · intro hor
          rcases hor with h | h
          · rw [h1'] at h
            exact absurd h (by simp)
          · rw [h2'] at h
            exact absurd h (by simp)
      · intro hor
        rcases hor with h | h
        · rw [h1'] at h
          simp at h
        · rw [h2'] at h
          simp at h

/-- C8 witness: a request with no payment method is rejected at the
boundary with the state untouched. -/
theorem checkout_boundary_validation_witness :
    (checkout stSimple 11 ⟨none, none, none⟩).1.isBoundaryValidationErr =
      true ∧
    (checkout stSimple 11 ⟨none, none, none⟩).2 = stSimple :=
  ⟨(checkout_boundary_validation stSimple 11 ⟨none, none, none⟩).1.mpr
      (Or.inl rfl),
   (checkout_boundary_validation stSimple 11 ⟨none, none, none⟩).2
      (Or.inl rfl)⟩

/-- C9: evaluating both prediction endpoints at the claimed inputs.  With
fallback enabled and a timeout, the yield endpoint persists a
farmer-scoped history record with `isMock = true` as the claim says — but
the disease endpoint's persisted record consists of the Prediction schema's
four paths only: the `isMock` value the handler passes to the constructor
has no schema path and is dropped by mongoose strict mode, so neither the
stored record nor the 200 response carries a mock flag.  Moreover, with
fallback disabled a timeout surfaces as the generic 500, not the 503
ServiceUnavailable (whose branch only matches ECONNREFUSED). -/
theorem prediction_mock_flag_bug :
    diseasePredict true .timedOut ("Rice - Rust", 4/5) 7 "img-7" [] =
      (.okDoc ⟨7, "img-7", "Rice - Rust", 4/5⟩,
       [⟨7, "img-7", "Rice - Rust", 4/5⟩]) ∧
    yieldPredict true .timedOut (1000, 4/5) 7 "Rice" [] =
      (.okDoc ⟨7, "Rice", 1000, 4/5, true⟩, [⟨7, "Rice", 1000, 4/5, true⟩]) ∧
    diseasePredict false .timedOut ("Rice - Rust", 4/5) 7 "img-7" [] =
      (.serverError, []) ∧
    diseasePredict false .connRefused ("Rice - Rust", 4/5) 7 "img-7" [] =
      (.serviceUnavailable, []) := by
  refine ⟨rfl, rfl, rfl, rfl⟩

/-- C10: whenever the direct (non-checkout) order-creation path constructs
an order, the farmer it assigns is `validatedItems[0].product.farmer` — the
`farmer` property of the first item's client-supplied product *id*, which is
`undefined` (`none`) for every input; in particular it is never a value
taken from any item. -/
theorem directOrder_farmer_undefined
    (st : DbState) (uid : Nat) (items : List DirectOrderItem)
    (pm : Option String) (o : Order)
    (h : directOrderFor st uid items pm = some o) :
    o.farmer = none := by
  unfold directOrderFor at h
  rcases hv : validateDirectItems items st.products [] 0 with _ | ⟨vs, total, ps2⟩
  · rw [hv] at h
    cases h
  · rw [hv] at h
    rcases vs with _ | ⟨v0, vrest⟩
    · cases h
    · simp only at h
      cases h
      rfl

/-- Products for the direct-order witness: two farmers. -/
def stDirect : DbState :=
  ⟨[⟨1, 100, "Apples", 10, 5, "available", 0⟩,
    ⟨2, 200, "Beets", 5, 3, "available", 0⟩], [], []⟩

/-- A two-farmer direct-order request body. -/
def itemsDirect : List DirectOrderItem := [⟨1, 2⟩, ⟨2, 1⟩]

/-- The order the direct path constructs for `itemsDirect`. -/
def orderDirect : Order :=
  ⟨0, 1, none, [⟨1, 2, 10, "Apples"⟩, ⟨2, 1, 5, "Beets"⟩], 25,
   some "online", "pending", none⟩

/-- C10 witness: on a concrete two-farmer request the constructed order's
farmer is `none` (undefined). -/
theorem directOrder_farmer_undefined_witness :
    directOrderFor stDirect 1 itemsDirect (some "online") =
      some orderDirect ∧
    orderDirect.farmer = none :=
  ⟨by decide,
   directOrder_farmer_undefined stDirect 1 itemsDirect (some "online")
     orderDirect (by decide)⟩
